import Mathlib

/-!
Verification of the sensor-alignment and point-cloud-cleaning pipeline of
`depot/splat-worker/src/worker.py`.

Shallow-embedding conventions:

* Python floats are modelled as exact real numbers (`ℝ`); `numpy` float
  arrays of shape (N, 3) become `List V3`.
* `np.random.choice(len(points), 3, replace=False)` draws are modelled by an
  explicit list of index triples supplied to `filter_ground_plane`: one triple
  per RANSAC iteration, so `ransac_iterations = 100` corresponds to a sample
  list of length 100.
* `np.unique(..., return_index=True)` on the voxel keys returns the sorted
  distinct keys together with the index of the first occurrence of each key;
  numpy sorts the 12-byte void view of the three `int32` coordinates, which is
  some fixed linear order on key triples.  We model it as the lexicographic
  order `keyLe` on `ℤ × ℤ × ℤ`; the claims proved below do not depend on which
  linear order is used.  The `int32` cast is modelled as unbounded `ℤ`
  (`Int.floor`); wrap-around only merges distinct cells and is irrelevant to
  the properties at issue.
* Exception payloads (`str(e)`) and log/`message` strings are abstracted as
  numeric codes.
* Division by zero follows Lean's `x / 0 = 0` convention where numpy would
  produce `inf`/`nan`; every place where this matters is flagged at the
  corresponding theorem.
-/

namespace SplatWorker

/-- A 3-d point, one row of an (N, 3) numpy array. -/
abbrev V3 : Type := ℝ × ℝ × ℝ

/-- A quaternion `[qx, qy, qz, qw]`, scalar-last as in the source. -/
abbrev V4 : Type := ℝ × ℝ × ℝ × ℝ

/-- An integer voxel cell key, `np.floor(points / voxel_size).astype(np.int32)`. -/
abbrev VoxelKey : Type := ℤ × ℤ × ℤ

/-- One RANSAC draw: the three indices returned by
`np.random.choice(len(points), 3, replace=False)`. -/
abbrev Samp : Type := ℕ × ℕ × ℕ

/-- Componentwise difference of two points. -/
def sub3 (a b : V3) : V3 := (a.1 - b.1, a.2.1 - b.2.1, a.2.2 - b.2.2)

/-- `np.cross` of two 3-vectors. -/
def cross3 (a b : V3) : V3 :=
  (a.2.1 * b.2.2 - a.2.2 * b.2.1,
   a.2.2 * b.1 - a.1 * b.2.2,
   a.1 * b.2.1 - a.2.1 * b.1)

/-- `np.dot` of two 3-vectors. -/
def dot3 (a b : V3) : ℝ := a.1 * b.1 + a.2.1 * b.2.1 + a.2.2 * b.2.2

/-- `np.linalg.norm` of a 3-vector. -/
noncomputable def norm3 (a : V3) : ℝ := Real.sqrt (a.1 ^ 2 + a.2.1 ^ 2 + a.2.2 ^ 2)

/-- Euclidean distance between two points, as computed by `scipy.spatial.cKDTree`. -/
noncomputable def dist3 (a b : V3) : ℝ := norm3 (sub3 a b)

/-- Scalar multiple of a 3-vector. -/
def smul3 (c : ℝ) (a : V3) : V3 := (c * a.1, c * a.2.1, c * a.2.2)

/-- Componentwise sum of two 3-vectors. -/
def add3 (a b : V3) : V3 := (a.1 + b.1, a.2.1 + b.2.1, a.2.2 + b.2.2)

/-- Sum of squares of the four quaternion components. -/
def qsum4 (q : V4) : ℝ := q.1 ^ 2 + q.2.1 ^ 2 + q.2.2.1 ^ 2 + q.2.2.2 ^ 2

/-- `np.linalg.norm` of a quaternion. -/
noncomputable def norm4 (q : V4) : ℝ := Real.sqrt (qsum4 q)

/-- Componentwise negation of a quaternion. -/
def neg4 (q : V4) : V4 := (-q.1, -q.2.1, -q.2.2.1, -q.2.2.2)

/-- `prev.rotation * (1 - t) + next.rotation * t`, componentwise. -/
def blend4 (t : ℝ) (a b : V4) : V4 :=
  (a.1 * (1 - t) + b.1 * t,
   a.2.1 * (1 - t) + b.2.1 * t,
   a.2.2.1 * (1 - t) + b.2.2.1 * t,
   a.2.2.2 * (1 - t) + b.2.2.2 * t)

/-- `rotation / np.linalg.norm(rotation)`, componentwise. -/
noncomputable def normalize4 (q : V4) : V4 :=
  (q.1 / norm4 q, q.2.1 / norm4 q, q.2.2.1 / norm4 q, q.2.2.2 / norm4 q)

/-! ### Voxel downsampling (`voxel_downsample`, worker.py lines 338-363) -/

/-- `np.floor(point / voxel_size)` per axis, cast to integers. -/
noncomputable def voxelKey (s : ℝ) (p : V3) : VoxelKey :=
  (⌊p.1 / s⌋, ⌊p.2.1 / s⌋, ⌊p.2.2 / s⌋)

/-- The linear order on voxel keys modelling numpy's sort of the void view of
the three-int32 rows (see the file comment: any fixed linear order works for
the properties proved here). -/
def keyLe (a b : VoxelKey) : Prop :=
  a.1 < b.1 ∨ (a.1 = b.1 ∧ (a.2.1 < b.2.1 ∨ (a.2.1 = b.2.1 ∧ a.2.2 ≤ b.2.2)))

instance : DecidableRel keyLe := by
  intro a b
  unfold keyLe
  infer_instance

instance : IsTotal VoxelKey keyLe := by
  constructor
  intro a b
  unfold keyLe
  omega

instance : IsTrans VoxelKey keyLe := by
  constructor
  intro a b c
  unfold keyLe
  omega

theorem keyLe_antisymm {a b : VoxelKey} (h1 : keyLe a b) (h2 : keyLe b a) : a = b := by
  unfold keyLe at h1 h2
  have : a.1 = b.1 ∧ a.2.1 = b.2.1 ∧ a.2.2 = b.2.2 := by omega
  obtain ⟨e1, e2, e3⟩ := this
  exact Prod.ext e1 (Prod.ext e2 e3)

/--
`voxel_downsample(points, voxel_size)`: quantize each point to its voxel key,
take the sorted distinct keys (`np.unique` on the void view, with
`return_index=True` yielding the first-occurrence index of each key), and keep
for each distinct key the first input point mapping to it, in sorted-key order.
The source guards `if len(points) == 0: return points` first.
-/
noncomputable def voxel_downsample (points : List V3) (voxel_size : ℝ) : List V3 :=
  if points.length = 0 then points
  else
    (List.insertionSort keyLe (points.map (voxelKey voxel_size)).dedup).map
      (fun k => (points.find? (fun p => decide (voxelKey voxel_size p = k))).getD
        ((0 : ℝ), (0 : ℝ), (0 : ℝ)))

/-! ### Statistical outlier removal (`remove_statistical_outliers`, lines 366-414) -/

/--
The mean distance from `p` to its `k` nearest neighbours in `points`,
excluding itself: `tree.query(points, k=k+1)` yields the `k+1` smallest
distances from `p` to the members of `points` in ascending order (the first
being the self-distance 0), and `np.mean(distances[:, 1:], axis=1)` averages
the remaining `k` of them.
-/
noncomputable def knnMeanDist (points : List V3) (k : ℕ) (p : V3) : ℝ :=
  let ds := List.insertionSort (fun a b => a ≤ b) (points.map (fun q => dist3 p q))
  (((ds.take (k + 1)).drop 1).sum) / (k : ℝ)

/--
`remove_statistical_outliers(points, k_neighbors, std_ratio)`: when fewer than
`k_neighbors + 1` points exist, return the input unchanged; otherwise compute
every point's mean distance to its `k_neighbors` nearest neighbours, the global
mean and (population) standard deviation of those values, and keep exactly the
points whose mean distance is strictly below
`global_mean + std_ratio * global_std` (the source's mask is
`mean_distances < threshold`; `filtered = points[mask]` preserves order).
-/
noncomputable def remove_statistical_outliers
    (points : List V3) (k_neighbors : ℕ) (std_ratio : ℝ) : List V3 :=
  if points.length < k_neighbors + 1 then points
  else
    let md := points.map (knnMeanDist points k_neighbors)
    let global_mean := md.sum / (md.length : ℝ)
    let global_std :=
      Real.sqrt ((md.map (fun x => (x - global_mean) ^ 2)).sum / (md.length : ℝ))
    let threshold := global_mean + std_ratio * global_std
    points.filter (fun p => decide (knnMeanDist points k_neighbors p < threshold))

/-! ### RANSAC ground segmentation (`filter_ground_plane`, lines 417-481) -/

/--
One RANSAC trial (lines 440-465): take the three sampled points, fit a plane
through them, and return the inlier predicate `|points·normal + d| < threshold`
— or `none` when the trial is discarded because the sample is (near) collinear
(`norm < 1e-6`) or the unit normal is not near-vertical (`|normal[2]| < 0.8`).
Out-of-range indices (which would raise in numpy) read a zero point; the claims
below only use in-range samples.
-/
noncomputable def ransacTrial (points : List V3) (ground_threshold : ℝ) (samp : Samp) :
    Option (V3 → Bool) :=
  let zero : V3 := ((0 : ℝ), (0 : ℝ), (0 : ℝ))
  let s0 := points.getD samp.1 zero
  let s1 := points.getD samp.2.1 zero
  let s2 := points.getD samp.2.2 zero
  let normal := cross3 (sub3 s1 s0) (sub3 s2 s0)
  let nrm := norm3 normal
  if nrm < 1e-6 then none
  else
    let unitn := smul3 (1 / nrm) normal
    if |unitn.2.2| < 0.8 then none
    else
      let d := -(dot3 unitn s0)
      some (fun p => decide (|dot3 unitn p + d| < ground_threshold))

/--
The RANSAC loop state: the best inlier mask found so far (`best_inliers`,
initially `None`) and its inlier count (`best_inlier_count`, initially 0).
A trial's mask replaces the best one exactly when its inlier count is
strictly larger.
-/
noncomputable def ransacFold (points : List V3) (ground_threshold : ℝ)
    (samples : List Samp) : Option (V3 → Bool) × ℕ :=
  samples.foldl
    (fun best samp =>
      match ransacTrial points ground_threshold samp with
      | none => best
      | some mask =>
          let c := (points.filter mask).length
          if best.2 < c then (some mask, c) else best)
    (none, 0)

/--
`filter_ground_plane(points, ground_threshold, ransac_iterations)`: with fewer
than 3 points, return `(points, empty)` before any sampling; otherwise run the
RANSAC trials (one per element of `samples`, the modelled stream of
`np.random.choice` draws) and split the input by the best inlier mask,
returning `(non_ground_points, ground_points) = (points[~mask], points[mask])`.
If no trial produced a valid horizontal plane, return `(points, empty)`.
-/
noncomputable def filter_ground_plane (points : List V3) (ground_threshold : ℝ)
    (samples : List Samp) : List V3 × List V3 :=
  if points.length < 3 then (points, [])
  else
    match (ransacFold points ground_threshold samples).1 with
    | none => (points, [])
    | some mask => (points.filter (fun p => !mask p), points.filter mask)

/-! ### Full preprocessing pipeline (`preprocess_point_cloud`, lines 484-524) -/

/--
`preprocess_point_cloud(points, voxel_size, remove_outliers, filter_ground)`:
empty input returns immediately; then voxel downsampling, then (when enabled
and more than 50 points survive) statistical outlier removal with the default
`k_neighbors=20, std_ratio=2.0`, then (when enabled and more than 100 points
survive) RANSAC ground segmentation with the default threshold 0.1 — whose
result is bound and logged but never subtracted: the function returns the
post-outlier-removal cloud in every case.
-/
noncomputable def preprocess_point_cloud (points : List V3) (voxel_size : ℝ)
    (remove_outliers filter_ground : Bool) (samples : List Samp) : List V3 :=
  if points.length = 0 then points
  else
    let p1 := voxel_downsample points voxel_size
    let p2 := if remove_outliers ∧ 50 < p1.length
              then remove_statistical_outliers p1 20 2 else p1
    let _ground := if filter_ground ∧ 100 < p2.length
                   then some (filter_ground_plane p2 (1 / 10) samples) else none
    p2

/-! ### Pose interpolation (`interpolate_pose`, lines 130-168) -/

/-- A pose row of `poses.csv`: timestamp, position, scalar-last quaternion. -/
structure Pose where
  timestamp : ℝ
  position : V3
  rotation : V4

/--
The bracketing scan of `interpolate_pose` (lines 137-146): walk the pose list
in order, remembering the latest pose with `timestamp <= query` as `prev`, and
stop at the first pose with `timestamp > query`, which becomes `next`.
`acc` is the `prev_pose` accumulated so far (initially `None`).
-/
noncomputable def findBracket (t : ℝ) :
    List Pose → Option Pose → Option Pose × Option Pose
  | [], acc => (acc, none)
  | p :: rest, acc =>
      if p.timestamp ≤ t then findBracket t rest (some p) else (acc, some p)

/-- `np.clip(t, 0.0, 1.0)`. -/
noncomputable def clip01 (t : ℝ) : ℝ := min (max t 0) 1

/--
`interpolate_pose(poses, timestamp)`: `None` on an empty list; `poses[0]` when
no pose has timestamp at or below the query; the latest such pose when none is
later; otherwise, unless the bracketing timestamps are closer than `1e-6`,
build a pose at the query time with linearly interpolated position and the
componentwise-blended, renormalized rotation.
-/
noncomputable def interpolate_pose (poses : List Pose) (t : ℝ) : Option Pose :=
  match poses with
  | [] => none
  | p0 :: _ =>
    match findBracket t poses none with
    | (none, _) => some p0
    | (some prev, none) => some prev
    | (some prev, some next) =>
        let dt := next.timestamp - prev.timestamp
        if dt < 1e-6 then some prev
        else
          let tt := clip01 ((t - prev.timestamp) / dt)
          some { timestamp := t
                 position := add3 (smul3 (1 - tt) prev.position)
                                  (smul3 tt next.position)
                 rotation := normalize4 (blend4 tt prev.rotation next.rotation) }

/-! ### Job lifecycle (`run_gaussian_splatting` lines 527-611, `process_job`
lines 753-798)

The effectful steps of the lifecycle — writing `splat.ply`
(`save_points_as_ply`), training (`train_gaussians`), exporting the trained
Gaussians (`export_gaussians_to_ply`), parsing the descriptor
(`json.load` + `Job.from_json`), loading the session (`load_session_data`) and
writing `result.json` — are modelled by explicit `Except` outcomes passed in as
arguments: `.ok` when the Python call returns, `.error code` when it raises.
Wall-clock fields (`duration_secs`, `completed_at`) and directory creation are
not modelled.  Exception payloads are numeric codes (see the file comment). -/

/-- The result statuses occurring in the worker. -/
inductive Status where
  | pending
  | insufficient_data
  | point_cloud_only
  | success
  | failed
deriving DecidableEq, Repr

/-- The terminal location of a descriptor file: the `processed` or the
`failed` subdirectory of the queue. -/
inductive Dest where
  | processed
  | failed
deriving DecidableEq, Repr

/-- The `stats` record built by `run_gaussian_splatting`. -/
structure Stats where
  input_points : ℕ
  input_images : ℕ
  input_poses : ℕ
  iterations : ℕ
  status : Status
  preprocessed_points : Option ℕ
  output_points : Option ℕ
  output_gaussians : Option ℕ
  message : Option ℕ
  error : Option ℕ
deriving DecidableEq, Repr

/-- A parsed job descriptor (only the identifier matters to the claims). -/
structure Job where
  id : ℕ
deriving DecidableEq, Repr

/-- The `result.json` record written by `process_job`. -/
structure ResultRecord where
  job_id : ℕ
  status : Status
  stats : Stats
deriving DecidableEq, Repr

/-- The session data produced by `load_session_data`: world-frame points,
camera pose records (count) and image list (count). -/
abbrev SessionData : Type := List V3 × ℕ × ℕ

/-- The `stats` dict as initialized at the top of `run_gaussian_splatting`
(lines 547-553): input counts, the configured iteration count, and status
`pending`. -/
def statsInit (points : List V3) (nposes nimages iters : ℕ) : Stats :=
  { input_points := points.length
    input_images := nimages
    input_poses := nposes
    iterations := iters
    status := Status.pending
    preprocessed_points := none
    output_points := none
    output_gaussians := none
    message := none
    error := none }

/-- The numeric codes standing for the two literal `message` strings set by
`run_gaussian_splatting`. -/
def msgInsufficient : ℕ := 1

/-- Code for the `gsplat not available, exported point cloud` message. -/
def msgNoGsplat : ℕ := 2

/--
The `try` block of `run_gaussian_splatting` (lines 555-604).  An exception
anywhere in the block aborts it; the `Except.error` carries the exception code
together with the `stats` dict as already mutated (the Python handler keeps
those earlier mutations).  Control flow: preprocess when nonempty (voxel size
0.05, outliers on, ground filtering off — so no random draws are consumed),
then the `< 100` insufficient-data path (saving a PLY when any points remain),
else train-and-export when gsplat is available, else the save fallback.
-/
noncomputable def rgsTry (points : List V3) (nposes nimages iters : ℕ)
    (hasGsplat : Bool) (saveRes : Except ℕ Unit) (trainRes : Except ℕ ℕ)
    (exportRes : Except ℕ Unit) : Except (ℕ × Stats) Stats :=
  let s0 := statsInit points nposes nimages iters
  let pts1 := if 0 < points.length
              then preprocess_point_cloud points (5 / 100) true false [] else points
  let s1 := if 0 < points.length
            then { s0 with preprocessed_points := some pts1.length } else s0
  if pts1.length < 100 then
    let s2 := { s1 with status := Status.insufficient_data
                        message := some msgInsufficient }
    if 0 < pts1.length then
      match saveRes with
      | Except.error e => Except.error (e, s2)
      | Except.ok _ =>
          Except.ok { s2 with output_points := some pts1.length
                              status := Status.point_cloud_only }
    else Except.ok s2
  else
    if hasGsplat then
      match trainRes with
      | Except.error e => Except.error (e, s1)
      | Except.ok ngauss =>
          match exportRes with
          | Except.error e => Except.error (e, s1)
          | Except.ok _ =>
              Except.ok { s1 with output_gaussians := some ngauss
                                  status := Status.success }
    else
      match saveRes with
      | Except.error e => Except.error (e, s1)
      | Except.ok _ =>
          Except.ok { s1 with output_points := some pts1.length
                              status := Status.point_cloud_only
                              message := some msgNoGsplat }

/--
`run_gaussian_splatting` (lines 527-611): run the `try` block; on an exception
record status `failed` and the exception in `error`, keeping the stats
mutations made before the exception.
-/
noncomputable def run_gaussian_splatting (points : List V3) (nposes nimages iters : ℕ)
    (hasGsplat : Bool) (saveRes : Except ℕ Unit) (trainRes : Except ℕ ℕ)
    (exportRes : Except ℕ Unit) : Stats :=
  match rgsTry points nposes nimages iters hasGsplat saveRes trainRes exportRes with
  | Except.ok s => s
  | Except.error es => { es.2 with status := Status.failed, error := some es.1 }

/--
`process_job` (lines 753-798): everything from reading the descriptor to
relocating it sits in one `try`.  Parsing (`json.load` + `Job.from_json`) or
session loading raising propagates to the handler, which moves the descriptor
to the `failed` subdirectory with no result file.  Otherwise
`run_gaussian_splatting` runs (its own handler absorbs pipeline, training and
export exceptions into the stats), `result.json` is written — a failure there
also reaches the outer handler — and the descriptor moves to `processed`.
Returns the result record written (if any) and the terminal directory.
-/
noncomputable def process_job (parseRes : Except ℕ Job)
    (loadRes : Except ℕ SessionData) (iters : ℕ) (hasGsplat : Bool)
    (saveRes : Except ℕ Unit) (trainRes : Except ℕ ℕ) (exportRes : Except ℕ Unit)
    (writeRes : Except ℕ Unit) : Option ResultRecord × Dest :=
  match parseRes with
  | Except.error _ => (none, Dest.failed)
  | Except.ok job =>
    match loadRes with
    | Except.error _ => (none, Dest.failed)
    | Except.ok sd =>
      let stats := run_gaussian_splatting sd.1 sd.2.1 sd.2.2 iters hasGsplat
                     saveRes trainRes exportRes
      match writeRes with
      | Except.error _ => (none, Dest.failed)
      | Except.ok _ =>
          (some { job_id := job.id, status := stats.status, stats := stats },
           Dest.processed)

/-! ### Theorems -/

/--
C8: an empty point cloud passes through the whole preprocessing pipeline
unchanged — `preprocess_point_cloud` returns it at the `len(points) == 0`
guard (worker.py lines 502-503) without invoking any later stage, and the
`voxel_downsample` stage likewise returns an empty input unchanged at its own
guard (lines 349-350).
-/
theorem preprocess_empty_passthrough (voxel_size : ℝ) (remove_outliers filter_ground : Bool)
    (samples : List Samp) (s : ℝ) :
    preprocess_point_cloud [] voxel_size remove_outliers filter_ground samples = [] ∧
    voxel_downsample [] s = [] := by
  constructor <;> rfl

/--
C5: the preprocessing pipeline's output is the post-downsample,
post-outlier-removal cloud with the ground partition never subtracted —
`preprocess_point_cloud` with `filter_ground=True` returns the same cloud as
with `filter_ground=False` on the same input, whatever random draws the ground
segmentation consumes (worker.py lines 514-524 bind the partition and drop it).
-/
theorem preprocess_ground_filter_no_effect (points : List V3) (voxel_size : ℝ)
    (remove_outliers : Bool) (samples1 samples2 : List Samp) :
    preprocess_point_cloud points voxel_size remove_outliers true samples1 =
      preprocess_point_cloud points voxel_size remove_outliers false samples2 := by
  unfold preprocess_point_cloud
  rfl

/--
C9: with fewer than 3 points, `filter_ground_plane` returns the whole input as
non-ground and an empty ground array at its guard (worker.py lines 433-434),
for every sample stream — in particular it never reads any sampled index, so
the 3-point sampling that would fail on such input is unreachable.
-/
theorem filter_ground_plane_small_input (points : List V3) (ground_threshold : ℝ)
    (samples : List Samp) (h : points.length < 3) :
    filter_ground_plane points ground_threshold samples = (points, []) := by
  unfold filter_ground_plane
  rw [if_pos h]

/-- Witness for C9 at a one-point cloud and a sample stream whose indices are
all out of range: the guard returns before any index is read. -/
theorem filter_ground_plane_small_input_witness :
    [((0 : ℝ), (0 : ℝ), (0 : ℝ))].length < 3 ∧
    filter_ground_plane [((0 : ℝ), (0 : ℝ), (0 : ℝ))] (1 / 10) [(9, 9, 9)] =
      ([((0 : ℝ), (0 : ℝ), (0 : ℝ))], []) :=
  ⟨by decide, filter_ground_plane_small_input _ _ _ (by decide)⟩

/-- The demo job descriptor used by the lifecycle theorems. -/
def jobDemo : Job := { id := 7 }

/--
C2 counterexample: the claim says every exception raised after successful
parsing — including during session loading — is caught, recorded in a result
record with status `failed`, and the descriptor still lands in `processed`.
In the code, `load_session_data` runs inside `process_job`'s single `try`
(worker.py lines 757-798) and outside `run_gaussian_splatting`'s inner `try`,
so an exception there (e.g. a malformed `timestamps.csv` row hitting
`int(parts[0])`, line 230) reaches the outer handler: no result record is
written and the descriptor moves to the `failed` subdirectory, not
`processed`.
-/
theorem process_job_load_failure_routes_to_failed :
    process_job (Except.ok jobDemo) (Except.error 3) 30000 false (Except.ok ())
        (Except.ok 0) (Except.ok ()) (Except.ok ()) = (none, Dest.failed) ∧
    Dest.failed ≠ Dest.processed := by
  constructor
  · rfl
  · decide

/--
C2 amended: when parsing, session loading and the result write all succeed,
the descriptor is relocated to `processed` and the result record carries the
status computed by `run_gaussian_splatting`; an exception inside the splatting
stage (pipeline, training or export) is absorbed there and recorded as status
`failed` with the exception in the `error` field.  Failures at parse time,
during session loading, or when writing the result instead route the
descriptor to the `failed` subdirectory with no result record.
-/
theorem process_job_post_parse_behavior (parseRes : Except ℕ Job)
    (loadRes : Except ℕ SessionData) (iters : ℕ) (hasGsplat : Bool)
    (saveRes : Except ℕ Unit) (trainRes : Except ℕ ℕ) (exportRes : Except ℕ Unit)
    (writeRes : Except ℕ Unit) (job : Job) (sd : SessionData)
    (hp : parseRes = Except.ok job) (hl : loadRes = Except.ok sd)
    (hw : writeRes = Except.ok ()) :
    process_job parseRes loadRes iters hasGsplat saveRes trainRes exportRes writeRes =
      (some { job_id := job.id
              status := (run_gaussian_splatting sd.1 sd.2.1 sd.2.2 iters hasGsplat
                          saveRes trainRes exportRes).status
              stats := run_gaussian_splatting sd.1 sd.2.1 sd.2.2 iters hasGsplat
                          saveRes trainRes exportRes },
       Dest.processed) ∧
    (∀ e s, rgsTry sd.1 sd.2.1 sd.2.2 iters hasGsplat saveRes trainRes exportRes =
        Except.error (e, s) →
      (run_gaussian_splatting sd.1 sd.2.1 sd.2.2 iters hasGsplat saveRes trainRes
          exportRes).status = Status.failed ∧
      (run_gaussian_splatting sd.1 sd.2.1 sd.2.2 iters hasGsplat saveRes trainRes
          exportRes).error = some e) := by
  subst hp hl hw
  constructor
  · rfl
  · intro e s hfail
    unfold run_gaussian_splatting
    rw [hfail]
    exact ⟨rfl, rfl⟩

/-- The demo session data for the C2 witness: one LiDAR point, two camera pose
records, three images. -/
def sdDemo : SessionData := ([((0 : ℝ), (0 : ℝ), (0 : ℝ))], 2, 3)

/-- Witness for the amended C2 at concrete inputs where the splatting stage's
PLY write raises (code 5): parsing, loading and the result write succeed, so
the theorem applies. -/
theorem process_job_post_parse_behavior_witness :
    process_job (Except.ok jobDemo) (Except.ok sdDemo) 30000 false (Except.error 5)
        (Except.ok 0) (Except.ok ()) (Except.ok ()) =
      (some { job_id := jobDemo.id
              status := (run_gaussian_splatting sdDemo.1 sdDemo.2.1 sdDemo.2.2 30000 false
                          (Except.error 5) (Except.ok 0) (Except.ok ())).status
              stats := run_gaussian_splatting sdDemo.1 sdDemo.2.1 sdDemo.2.2 30000 false
                          (Except.error 5) (Except.ok 0) (Except.ok ()) },
       Dest.processed) ∧
    (∀ e s, rgsTry sdDemo.1 sdDemo.2.1 sdDemo.2.2 30000 false (Except.error 5)
        (Except.ok 0) (Except.ok ()) = Except.error (e, s) →
      (run_gaussian_splatting sdDemo.1 sdDemo.2.1 sdDemo.2.2 30000 false
          (Except.error 5) (Except.ok 0) (Except.ok ())).status = Status.failed ∧
      (run_gaussian_splatting sdDemo.1 sdDemo.2.1 sdDemo.2.2 30000 false
          (Except.error 5) (Except.ok 0) (Except.ok ())).error = some e) :=
  process_job_post_parse_behavior _ _ 30000 false (Except.error 5) (Except.ok 0)
    (Except.ok ()) _ jobDemo sdDemo rfl rfl rfl

/--
C10: although the stats record starts out with status `pending`, every stats
value returned by `run_gaussian_splatting` has one of the four terminal
statuses `insufficient_data`, `point_cloud_only`, `success`, `failed` — the
status `pending` survives on no execution path (worker.py lines 547-611).
-/
theorem run_gaussian_splatting_status_terminal (points : List V3)
    (nposes nimages iters : ℕ) (hasGsplat : Bool) (saveRes : Except ℕ Unit)
    (trainRes : Except ℕ ℕ) (exportRes : Except ℕ Unit) :
    (run_gaussian_splatting points nposes nimages iters hasGsplat saveRes trainRes
        exportRes).status = Status.insufficient_data ∨
    (run_gaussian_splatting points nposes nimages iters hasGsplat saveRes trainRes
        exportRes).status = Status.point_cloud_only ∨
    (run_gaussian_splatting points nposes nimages iters hasGsplat saveRes trainRes
        exportRes).status = Status.success ∨
    (run_gaussian_splatting points nposes nimages iters hasGsplat saveRes trainRes
        exportRes).status = Status.failed := by
  unfold run_gaussian_splatting
  cases hr : rgsTry points nposes nimages iters hasGsplat saveRes trainRes exportRes with
  | error es => simp
  | ok s =>
    simp only []
    unfold rgsTry at hr
    cases saveRes <;> cases trainRes <;> cases exportRes <;> cases hasGsplat <;>
      simp only [] at hr <;>
      repeat' split at hr
    all_goals (try simp_all)
    all_goals (subst hr; simp)

/-- A sample triple as drawn by `np.random.choice(n, 3, replace=False)`:
three pairwise-distinct indices below `n`. -/
def sampValid (n : ℕ) (s : Samp) : Prop :=
  s.1 < n ∧ s.2.1 < n ∧ s.2.2 < n ∧ s.1 ≠ s.2.1 ∧ s.1 ≠ s.2.2 ∧ s.2.1 ≠ s.2.2

instance (n : ℕ) (s : Samp) : Decidable (sampValid n s) := by
  unfold sampValid
  infer_instance

/--
C4: for every input cloud and every sequence of random sample draws, the two
arrays returned by `filter_ground_plane` form an exact partition of the input:
`non_ground ++ ground` is a permutation of the input (so every input point
lands in exactly one side, with multiplicity), and no point value lies in both
sides (the inlier mask is a function of the point's coordinates).
-/
theorem filter_ground_plane_partition (points : List V3) (ground_threshold : ℝ)
    (samples : List Samp) (_hs : ∀ s ∈ samples, sampValid points.length s) :
    ((filter_ground_plane points ground_threshold samples).1 ++
      (filter_ground_plane points ground_threshold samples).2).Perm points ∧
    ∀ p : V3, ¬(p ∈ (filter_ground_plane points ground_threshold samples).1 ∧
                p ∈ (filter_ground_plane points ground_threshold samples).2) := by
  unfold filter_ground_plane
  split
  · refine ⟨by simp, ?_⟩
    intro p hp
    simp at hp
  · split
    · refine ⟨by simp, ?_⟩
      intro p hp
      simp at hp
    · rename_i mask _
      constructor
      · exact List.perm_append_comm.trans (List.filter_append_perm mask points)
      · intro p hp
        have h1 := List.of_mem_filter hp.1
        have h2 := List.of_mem_filter hp.2
        simp at h1
        rw [h2] at h1
        exact absurd h1 (by simp)

/-- The three-point demo cloud (a horizontal triangle in the z = 0 plane)
used by the C4 witness. -/
def demoCloud3 : List V3 :=
  [((0 : ℝ), (0 : ℝ), (0 : ℝ)), ((1 : ℝ), (0 : ℝ), (0 : ℝ)), ((0 : ℝ), (1 : ℝ), (0 : ℝ))]

/-- Witness for C4 at the three-point demo cloud with the single valid draw
`(0, 1, 2)`. -/
theorem filter_ground_plane_partition_witness :
    (∀ s ∈ [((0, 1, 2) : Samp)], sampValid demoCloud3.length s) ∧
    ((filter_ground_plane demoCloud3 (1 / 10) [(0, 1, 2)]).1 ++
      (filter_ground_plane demoCloud3 (1 / 10) [(0, 1, 2)]).2).Perm demoCloud3 ∧
    ∀ p : V3, ¬(p ∈ (filter_ground_plane demoCloud3 (1 / 10) [(0, 1, 2)]).1 ∧
                p ∈ (filter_ground_plane demoCloud3 (1 / 10) [(0, 1, 2)]).2) :=
  ⟨by decide, filter_ground_plane_partition _ _ _ (by decide)⟩

/-- The perfectly uniform degenerate cloud: 21 coincident points, enough for
the `len(points) >= k_neighbors + 1` guard to let the outlier stage run. -/
def uniformCloud : List V3 := List.replicate 21 ((0 : ℝ), (0 : ℝ), (0 : ℝ))

/-- A point is at distance 0 from itself. -/
theorem dist3_self (p : V3) : dist3 p p = 0 := by
  simp [dist3, sub3, norm3]

/-- In the uniform cloud every mean k-nearest-neighbour distance is 0. -/
theorem knnMeanDist_uniform :
    knnMeanDist uniformCloud 20 ((0 : ℝ), (0 : ℝ), (0 : ℝ)) = 0 := by
  have h := List.perm_insertionSort (fun a b : ℝ => a ≤ b) (List.replicate 21 (0 : ℝ))
  rw [List.perm_replicate] at h
  simp [knnMeanDist, uniformCloud, dist3_self, h, List.sum_replicate]

/--
C1 (the code-bug evaluation): on the perfectly uniform 21-point cloud every
per-point mean neighbour distance equals the global mean and the standard
deviation is zero, so the threshold equals the common value; the source keeps
points with `mean_distances < threshold` (strictly, worker.py line 409),
which holds for no point — `remove_statistical_outliers` removes all 21
points, where both the claim and the function's own docstring ("points with
mean distance greater than ... are considered outliers", lines 374-375) say
it removes zero.
-/
theorem remove_statistical_outliers_uniform_drops_all :
    remove_statistical_outliers uniformCloud 20 2 = [] ∧ uniformCloud.length = 21 := by
  constructor
  · have hmd : uniformCloud.map (knnMeanDist uniformCloud 20) = List.replicate 21 0 := by
      rw [show uniformCloud.map (knnMeanDist uniformCloud 20) =
            (List.replicate 21 ((0 : ℝ), (0 : ℝ), (0 : ℝ))).map (knnMeanDist uniformCloud 20)
          from rfl]
      rw [List.map_replicate, knnMeanDist_uniform]
    unfold remove_statistical_outliers
    rw [if_neg (by simp [uniformCloud])]
    simp only [hmd, List.sum_replicate, smul_zero, List.length_replicate, zero_div,
      List.map_replicate, sub_zero, List.filter_replicate]
    norm_num [knnMeanDist_uniform, uniformCloud, List.filter_replicate]
    exact le_of_eq knnMeanDist_uniform.symm
  · simp [uniformCloud]

/-! ### Idempotence of voxel downsampling (C3) -/

/-- The sorted distinct voxel keys of a cloud — what `np.unique` returns as
its first component. -/
noncomputable def sortedVoxelKeys (points : List V3) (s : ℝ) : List VoxelKey :=
  List.insertionSort keyLe ((points.map (voxelKey s)).dedup)

/-- The representative retained for a voxel key: the first input point whose
key it is (`points[unique_indices]` with `return_index=True` first-occurrence
indices). -/
noncomputable def voxelRep (points : List V3) (s : ℝ) (k : VoxelKey) : V3 :=
  (points.find? (fun p => decide (voxelKey s p = k))).getD ((0 : ℝ), (0 : ℝ), (0 : ℝ))

/-- On nonempty input, `voxel_downsample` is the representative map over the
sorted distinct keys. -/
theorem voxel_downsample_eq (points : List V3) (s : ℝ) (h : ¬points.length = 0) :
    voxel_downsample points s = (sortedVoxelKeys points s).map (voxelRep points s) := by
  unfold voxel_downsample sortedVoxelKeys voxelRep
  rw [if_neg h]

/-- The sorted distinct keys are distinct. -/
theorem sortedVoxelKeys_nodup (points : List V3) (s : ℝ) :
    (sortedVoxelKeys points s).Nodup :=
  (List.perm_insertionSort keyLe _).nodup_iff.mpr (List.nodup_dedup _)

/-- The sorted distinct keys are sorted. -/
theorem sortedVoxelKeys_sorted (points : List V3) (s : ℝ) :
    List.Sorted keyLe (sortedVoxelKeys points s) :=
  List.sorted_insertionSort keyLe _

/-- A key is among the sorted distinct keys iff some input point maps to it. -/
theorem mem_sortedVoxelKeys {points : List V3} {s : ℝ} {k : VoxelKey} :
    k ∈ sortedVoxelKeys points s ↔ ∃ p ∈ points, voxelKey s p = k := by
  unfold sortedVoxelKeys
  simp [List.mem_dedup]

/-- The representative of an occupied cell lies in that cell. -/
theorem voxelRep_key {points : List V3} {s : ℝ} {k : VoxelKey}
    (h : ∃ p ∈ points, voxelKey s p = k) :
    voxelKey s (voxelRep points s k) = k := by
  unfold voxelRep
  have hsome : (points.find? (fun p => decide (voxelKey s p = k))).isSome := by
    rw [List.find?_isSome]
    obtain ⟨p, hp, he⟩ := h
    exact ⟨p, hp, by simp [he]⟩
  obtain ⟨q, hq⟩ := Option.isSome_iff_exists.mp hsome
  rw [hq]
  simpa using List.find?_some hq

/-- The keys of the downsampled cloud are exactly the sorted distinct keys of
the input. -/
theorem voxel_downsample_map_key (points : List V3) (s : ℝ) (h : ¬points.length = 0) :
    (voxel_downsample points s).map (voxelKey s) = sortedVoxelKeys points s := by
  rw [voxel_downsample_eq _ _ h, List.map_map]
  have hcong : ∀ k ∈ sortedVoxelKeys points s,
      (voxelKey s ∘ voxelRep points s) k = id k := by
    intro k hk
    exact voxelRep_key (mem_sortedVoxelKeys.mp hk)
  rw [List.map_congr_left hcong, List.map_id]

/-- Searching a mapped list for the element with a given key finds the image
of that key, when the map is a section of the key function. -/
theorem find?_map_of_inv {s : ℝ} {g : VoxelKey → V3} :
    ∀ {sk : List VoxelKey}, (∀ k ∈ sk, voxelKey s (g k) = k) → ∀ {k : VoxelKey}, k ∈ sk →
      (sk.map g).find? (fun p => decide (voxelKey s p = k)) = some (g k) := by
  intro sk
  induction sk with
  | nil =>
    intro _ k hk
    cases hk
  | cons a rest ih =>
    intro hg k hk
    rw [List.map_cons, List.find?_cons]
    by_cases hak : voxelKey s (g a) = k
    · have hd : (decide (voxelKey s (g a) = k)) = true := decide_eq_true hak
      rw [hd]
      have : a = k := (hg a (List.mem_cons_self a rest)).symm.trans hak
      rw [this]
    · have hd : (decide (voxelKey s (g a) = k)) = false := by simp [hak]
      rw [hd]
      have hk2 : k ∈ rest := by
        rcases List.mem_cons.mp hk with rfl | hk2
        · exact absurd (hg k (List.mem_cons_self k rest)) hak
        · exact hk2
      exact ih (fun k2 hk2 => hg k2 (List.mem_cons_of_mem _ hk2)) hk2

/--
C3: voxel downsampling is idempotent — re-downsampling an already-downsampled
cloud at the same cell size returns exactly the same list of points in the
same order.  After one pass each retained point occupies a distinct cell and
the points are listed in sorted-key order, so the second pass's `np.unique`
finds the same sorted distinct keys and the same first occurrence for each.
-/
theorem voxel_downsample_idempotent (points : List V3) (voxel_size : ℝ)
    (_h : 0 < voxel_size) :
    voxel_downsample (voxel_downsample points voxel_size) voxel_size =
      voxel_downsample points voxel_size := by
  by_cases hp : points.length = 0
  · rw [List.length_eq_zero.mp hp]
    rfl
  · have hout_eq := voxel_downsample_eq points voxel_size hp
    have hkeys := voxel_downsample_map_key points voxel_size hp
    have hne : ¬(voxel_downsample points voxel_size).length = 0 := by
      rw [hout_eq, List.length_map]
      intro hlen
      obtain ⟨p, hpmem⟩ :=
        List.exists_mem_of_ne_nil points (fun he => hp (by rw [he]; rfl))
      have hm : voxelKey voxel_size p ∈ sortedVoxelKeys points voxel_size :=
        mem_sortedVoxelKeys.mpr ⟨p, hpmem, rfl⟩
      rw [List.length_eq_zero] at hlen
      rw [hlen] at hm
      exact absurd hm (List.not_mem_nil _)
    have hsk2 : sortedVoxelKeys (voxel_downsample points voxel_size) voxel_size
        = sortedVoxelKeys points voxel_size := by
      rw [show sortedVoxelKeys (voxel_downsample points voxel_size) voxel_size =
            List.insertionSort keyLe (((voxel_downsample points voxel_size).map
              (voxelKey voxel_size)).dedup) from rfl]
      rw [hkeys, List.dedup_eq_self.mpr (sortedVoxelKeys_nodup points voxel_size)]
      exact (sortedVoxelKeys_sorted points voxel_size).insertionSort_eq
    rw [voxel_downsample_eq _ _ hne, hsk2, hout_eq]
    apply List.map_congr_left
    intro k hk
    have hfind : (List.map (voxelRep points voxel_size)
          (sortedVoxelKeys points voxel_size)).find?
        (fun p => decide (voxelKey voxel_size p = k))
        = some (voxelRep points voxel_size k) :=
      find?_map_of_inv (fun k2 hk2 => voxelRep_key (mem_sortedVoxelKeys.mp hk2)) hk
    calc voxelRep (List.map (voxelRep points voxel_size)
            (sortedVoxelKeys points voxel_size)) voxel_size k
        = ((List.map (voxelRep points voxel_size)
            (sortedVoxelKeys points voxel_size)).find?
              (fun p => decide (voxelKey voxel_size p = k))).getD
            ((0 : ℝ), (0 : ℝ), (0 : ℝ)) := rfl
      _ = (some (voxelRep points voxel_size k)).getD ((0 : ℝ), (0 : ℝ), (0 : ℝ)) := by
            rw [hfind]
      _ = voxelRep points voxel_size k := rfl

/-- Witness for C3 at a one-point cloud and cell size 1. -/
theorem voxel_downsample_idempotent_witness :
    (0 : ℝ) < 1 ∧
    voxel_downsample (voxel_downsample [((0 : ℝ), (0 : ℝ), (0 : ℝ))] 1) 1 =
      voxel_downsample [((0 : ℝ), (0 : ℝ), (0 : ℝ))] 1 :=
  ⟨by norm_num, voxel_downsample_idempotent [((0 : ℝ), (0 : ℝ), (0 : ℝ))] 1 (by norm_num)⟩

/-! ### Pose interpolation lemmas (C6, C7) -/

/-- When every pose in the list is strictly later than the query, the scan
stops immediately: `prev` stays as accumulated and `next` is the head. -/
theorem findBracket_high (t : ℝ) :
    ∀ (l : List Pose) (acc : Option Pose), (∀ q ∈ l, t < q.timestamp) →
      findBracket t l acc = (acc, l.head?)
  | [], _, _ => rfl
  | p :: rest, acc, h => by
    unfold findBracket
    rw [if_neg (not_le.mpr (h p (List.mem_cons_self p rest)))]
    rfl

/-- On a strictly timestamp-ascending list queried at the timestamp of entry
`i`, the scan returns entry `i` as `prev` and entry `i+1` (when present) as
`next`, whatever was accumulated before. -/
theorem findBracket_at_getElem :
    ∀ (l : List Pose) (i : ℕ) (hi : i < l.length) (acc : Option Pose),
      List.Pairwise (fun a b => a.timestamp < b.timestamp) l →
      findBracket (l[i].timestamp) l acc = (some l[i], l[i + 1]?)
  | [], i, hi, _, _ => by simp at hi
  | p :: rest, 0, _, acc, hpw => by
    simp only [List.getElem_cons_zero]
    unfold findBracket
    rw [if_pos le_rfl]
    rw [findBracket_high p.timestamp rest (some p)
      (fun q hq => (List.pairwise_cons.mp hpw).1 q hq)]
    cases rest <;> simp
  | p :: rest, i + 1, hi, acc, hpw => by
    have hi2 : i < rest.length := by simpa using hi
    simp only [List.getElem_cons_succ]
    unfold findBracket
    rw [if_pos (le_of_lt ((List.pairwise_cons.mp hpw).1 _ (List.getElem_mem hi2)))]
    rw [findBracket_at_getElem rest i hi2 (some p) (List.pairwise_cons.mp hpw).2]
    simp [List.getElem?_cons_succ]

/-- Whenever the scan yields a `prev`, it is either the accumulated pose or a
member of the list. -/
theorem findBracket_prev_mem (t : ℝ) :
    ∀ (l : List Pose) (acc : Option Pose) (a : Pose),
      (findBracket t l acc).1 = some a → acc = some a ∨ a ∈ l
  | [], _, _, h => Or.inl h
  | p :: rest, acc, a, h => by
    by_cases hts : p.timestamp ≤ t
    · unfold findBracket at h
      rw [if_pos hts] at h
      rcases findBracket_prev_mem t rest (some p) a h with hp | hm
      · exact Or.inr (by rw [Option.some_inj.mp hp]; exact List.mem_cons_self _ _)
      · exact Or.inr (List.mem_cons_of_mem _ hm)
    · unfold findBracket at h
      rw [if_neg hts] at h
      exact Or.inl h

/-- Whenever the scan yields both a `prev` and a `next`, they are adjacent in
the list — unless `prev` is just the accumulated pose, in which case `next` is
the head. -/
theorem findBracket_adj (t : ℝ) :
    ∀ (l : List Pose) (acc : Option Pose) (a b : Pose),
      findBracket t l acc = (some a, some b) →
      (∃ l1 l2, l = l1 ++ a :: b :: l2) ∨ (acc = some a ∧ ∃ l2, l = b :: l2)
  | [], acc, a, b, h => by
    simp only [findBracket, Prod.mk.injEq] at h
    exact absurd h.2 (by simp)
  | p :: rest, acc, a, b, h => by
    by_cases hts : p.timestamp ≤ t
    · unfold findBracket at h
      rw [if_pos hts] at h
      rcases findBracket_adj t rest (some p) a b h with ⟨l1, l2, hd⟩ | ⟨hp, l2, hd⟩
      · exact Or.inl ⟨p :: l1, l2, by rw [hd]; rfl⟩
      · refine Or.inl ⟨[], l2, ?_⟩
        rw [hd, ← Option.some_inj.mp hp]
        rfl
    · unfold findBracket at h
      rw [if_neg hts] at h
      simp only [Prod.mk.injEq] at h
      exact Or.inr ⟨h.1, rest, by rw [Option.some_inj.mp h.2]⟩

/-- A `Chain'` relation holds across any adjacent pair of the list. -/
theorem chain'_rel_of_append {α : Type} {R : α → α → Prop} :
    ∀ (l1 : List α) (a b : α) (l2 : List α), List.Chain' R (l1 ++ a :: b :: l2) → R a b
  | [], _, _, _, h => (List.chain'_cons.mp h).1
  | _ :: xs, a, b, l2, h => chain'_rel_of_append xs a b l2 h.tail

/-- The squared quaternion norm is nonnegative. -/
theorem qsum4_nonneg (q : V4) : 0 ≤ qsum4 q := by
  unfold qsum4
  positivity

/-- Unit quaternion norm is unit squared norm. -/
theorem norm4_eq_one_iff {q : V4} : norm4 q = 1 ↔ qsum4 q = 1 := by
  unfold norm4
  exact Real.sqrt_eq_one

/-- Zero squared norm means the zero quaternion. -/
theorem qsum4_eq_zero_iff {q : V4} :
    qsum4 q = 0 ↔ q = ((0 : ℝ), (0 : ℝ), (0 : ℝ), (0 : ℝ)) := by
  unfold qsum4
  constructor
  · intro h
    have h1 : q.1 = 0 := by
      nlinarith [sq_nonneg q.1, sq_nonneg q.2.1, sq_nonneg q.2.2.1, sq_nonneg q.2.2.2]
    have h2 : q.2.1 = 0 := by
      nlinarith [sq_nonneg q.1, sq_nonneg q.2.1, sq_nonneg q.2.2.1, sq_nonneg q.2.2.2]
    have h3 : q.2.2.1 = 0 := by
      nlinarith [sq_nonneg q.1, sq_nonneg q.2.1, sq_nonneg q.2.2.1, sq_nonneg q.2.2.2]
    have h4 : q.2.2.2 = 0 := by
      nlinarith [sq_nonneg q.1, sq_nonneg q.2.1, sq_nonneg q.2.2.1, sq_nonneg q.2.2.2]
    simp [Prod.ext_iff, h1, h2, h3, h4]
  · intro h
    rw [h]
    norm_num

/-- Renormalizing a nonzero quaternion yields an exactly unit-norm quaternion. -/
theorem norm4_normalize4 {q : V4} (h : ¬q = ((0 : ℝ), (0 : ℝ), (0 : ℝ), (0 : ℝ))) :
    norm4 (normalize4 q) = 1 := by
  have hqs : 0 < qsum4 q :=
    lt_of_le_of_ne (qsum4_nonneg q) (fun he => h (qsum4_eq_zero_iff.mp he.symm))
  have hn : 0 < norm4 q := Real.sqrt_pos.mpr hqs
  have hn2 : norm4 q ^ 2 = qsum4 q := Real.sq_sqrt (qsum4_nonneg q)
  rw [norm4_eq_one_iff]
  unfold normalize4
  unfold qsum4 at hn2 ⊢
  field_simp
  linarith [hn2]

/--
The componentwise blend of two unit quaternions with a blend factor in `[0,1]`
vanishes only when the factor is 1/2 and the quaternions are exactly
antipodal.
-/
theorem blend4_ne_zero {a b : V4} {t : ℝ} (ht0 : 0 ≤ t) (ht1 : t ≤ 1)
    (ha : qsum4 a = 1) (hb : qsum4 b = 1) (hne : ¬b = neg4 a) :
    ¬blend4 t a b = ((0 : ℝ), (0 : ℝ), (0 : ℝ), (0 : ℝ)) := by
  intro h
  simp only [blend4, Prod.ext_iff] at h
  obtain ⟨h1, h2, h3, h4⟩ := h
  have e1 : (a.1 * (1 - t)) ^ 2 = (b.1 * t) ^ 2 := by
    rw [eq_neg_of_add_eq_zero_left h1]
    ring
  have e2 : (a.2.1 * (1 - t)) ^ 2 = (b.2.1 * t) ^ 2 := by
    rw [eq_neg_of_add_eq_zero_left h2]
    ring
  have e3 : (a.2.2.1 * (1 - t)) ^ 2 = (b.2.2.1 * t) ^ 2 := by
    rw [eq_neg_of_add_eq_zero_left h3]
    ring
  have e4 : (a.2.2.2 * (1 - t)) ^ 2 = (b.2.2.2 * t) ^ 2 := by
    rw [eq_neg_of_add_eq_zero_left h4]
    ring
  have hsum : (1 - t) ^ 2 * qsum4 a = t ^ 2 * qsum4 b := by
    unfold qsum4
    linear_combination e1 + e2 + e3 + e4
  rw [ha, hb] at hsum
  have ht : t = 1 / 2 := by nlinarith [hsum]
  subst ht
  apply hne
  simp only [neg4, Prod.ext_iff]
  refine ⟨by linarith, by linarith, by linarith, by linarith⟩

/-- The clipped interpolation factor is nonnegative. -/
theorem clip01_nonneg (x : ℝ) : 0 ≤ clip01 x :=
  le_min (le_max_right x 0) zero_le_one

/-- The clipped interpolation factor is at most one. -/
theorem clip01_le_one (x : ℝ) : clip01 x ≤ 1 :=
  min_le_right _ _

/--
C6: querying `interpolate_pose` on a strictly timestamp-ascending list of
unit-quaternion poses at the exact timestamp of stored pose `i` returns that
pose's position and rotation unchanged.  The scan brackets the query with
pose `i` itself and pose `i+1`; the clamp-high, epsilon and interpolation
(`t = 0`) branches all reproduce pose `i`'s position, and its rotation
survives renormalization because it already has unit norm.
-/
theorem interpolate_pose_exact_timestamp (poses : List Pose) (i : ℕ)
    (hi : i < poses.length)
    (hsort : List.Pairwise (fun a b => a.timestamp < b.timestamp) poses)
    (hunit : ∀ p ∈ poses, norm4 p.rotation = 1) :
    ∃ q, interpolate_pose poses poses[i].timestamp = some q ∧
      q.position = poses[i].position ∧ q.rotation = poses[i].rotation := by
  cases poses with
  | nil => simp at hi
  | cons p0 rest =>
    have hfb := findBracket_at_getElem (p0 :: rest) i hi none hsort
    cases hnext : (p0 :: rest)[i + 1]? with
    | none =>
      rw [hnext] at hfb
      refine ⟨(p0 :: rest)[i], ?_, rfl, rfl⟩
      unfold interpolate_pose
      rw [hfb]
    | some next =>
      rw [hnext] at hfb
      by_cases hdt : next.timestamp - (p0 :: rest)[i].timestamp < 1e-6
      · refine ⟨(p0 :: rest)[i], ?_, rfl, rfl⟩
        unfold interpolate_pose
        simp only [hfb]
        rw [if_pos hdt]
      · have hclip : clip01 (((p0 :: rest)[i].timestamp - (p0 :: rest)[i].timestamp) /
            (next.timestamp - (p0 :: rest)[i].timestamp)) = 0 := by
          rw [sub_self, zero_div]
          unfold clip01
          rw [max_self]
          exact min_eq_left zero_le_one
        have hpos : add3 (smul3 (1 - (0 : ℝ)) (p0 :: rest)[i].position)
            (smul3 0 next.position) = (p0 :: rest)[i].position := by
          simp [add3, smul3]
        have hrot1 : blend4 0 (p0 :: rest)[i].rotation next.rotation
            = (p0 :: rest)[i].rotation := by
          simp [blend4]
        have hrot2 : normalize4 ((p0 :: rest)[i].rotation) = (p0 :: rest)[i].rotation := by
          have hn : norm4 ((p0 :: rest)[i].rotation) = 1 :=
            hunit _ (List.getElem_mem hi)
          simp [normalize4, hn]
        refine ⟨{ timestamp := (p0 :: rest)[i].timestamp
                  position := add3 (smul3 (1 - clip01 (((p0 :: rest)[i].timestamp -
                      (p0 :: rest)[i].timestamp) / (next.timestamp -
                      (p0 :: rest)[i].timestamp))) (p0 :: rest)[i].position)
                    (smul3 (clip01 (((p0 :: rest)[i].timestamp -
                      (p0 :: rest)[i].timestamp) / (next.timestamp -
                      (p0 :: rest)[i].timestamp))) next.position)
                  rotation := normalize4 (blend4 (clip01 (((p0 :: rest)[i].timestamp -
                      (p0 :: rest)[i].timestamp) / (next.timestamp -
                      (p0 :: rest)[i].timestamp))) (p0 :: rest)[i].rotation
                      next.rotation) }, ?_, ?_, ?_⟩
        · unfold interpolate_pose
          simp only [hfb]
          rw [if_neg hdt]
        · show add3 (smul3 (1 - clip01 (((p0 :: rest)[i].timestamp -
              (p0 :: rest)[i].timestamp) / (next.timestamp -
              (p0 :: rest)[i].timestamp))) (p0 :: rest)[i].position)
            (smul3 (clip01 (((p0 :: rest)[i].timestamp -
              (p0 :: rest)[i].timestamp) / (next.timestamp -
              (p0 :: rest)[i].timestamp))) next.position) = (p0 :: rest)[i].position
          rw [hclip]
          exact hpos
        · show normalize4 (blend4 (clip01 (((p0 :: rest)[i].timestamp -
              (p0 :: rest)[i].timestamp) / (next.timestamp -
              (p0 :: rest)[i].timestamp))) (p0 :: rest)[i].rotation
              next.rotation) = (p0 :: rest)[i].rotation
          rw [hclip, hrot1, hrot2]

/--
C7 (amended): on a nonempty, strictly timestamp-ascending list of
unit-quaternion poses in which no two adjacent poses carry exactly antipodal
rotations, the pose returned for any query has a rotation of exactly unit
norm.  (Without the antipodality proviso the claim fails: see the
counterexample, where the linear blend of two antipodal unit quaternions at
`t = 1/2` is the zero vector and renormalization divides by zero.)
-/
theorem interpolate_pose_unit_norm (poses : List Pose) (t : ℝ) (hne : poses ≠ [])
    (_hsort : List.Pairwise (fun a b => a.timestamp < b.timestamp) poses)
    (hunit : ∀ p ∈ poses, norm4 p.rotation = 1)
    (hanti : List.Chain' (fun a b => ¬b.rotation = neg4 a.rotation) poses) :
    ∃ q, interpolate_pose poses t = some q ∧ norm4 q.rotation = 1 := by
  cases poses with
  | nil => exact absurd rfl hne
  | cons p0 rest =>
    cases hfb : findBracket t (p0 :: rest) none with
    | mk prevO nextO =>
      cases prevO with
      | none =>
        refine ⟨p0, ?_, hunit p0 (List.mem_cons_self _ _)⟩
        unfold interpolate_pose
        rw [hfb]
      | some prev =>
        have hprevmem : prev ∈ p0 :: rest := by
          rcases findBracket_prev_mem t (p0 :: rest) none prev (by rw [hfb]) with h | h
          · exact absurd h (by simp)
          · exact h
        cases nextO with
        | none =>
          refine ⟨prev, ?_, hunit prev hprevmem⟩
          unfold interpolate_pose
          rw [hfb]
        | some next =>
          rcases findBracket_adj t (p0 :: rest) none prev next hfb with
            ⟨l1, l2, hdec⟩ | ⟨habs, _⟩
          · by_cases hdt : next.timestamp - prev.timestamp < 1e-6
            · refine ⟨prev, ?_, hunit prev hprevmem⟩
              unfold interpolate_pose
              simp only [hfb]
              rw [if_pos hdt]
            · have hnextmem : next ∈ p0 :: rest := by
                rw [hdec]
                simp
              have hbne : ¬blend4 (clip01 ((t - prev.timestamp) /
                    (next.timestamp - prev.timestamp))) prev.rotation next.rotation
                  = ((0 : ℝ), (0 : ℝ), (0 : ℝ), (0 : ℝ)) :=
                blend4_ne_zero (clip01_nonneg _) (clip01_le_one _)
                  (norm4_eq_one_iff.mp (hunit prev hprevmem))
                  (norm4_eq_one_iff.mp (hunit next hnextmem))
                  (chain'_rel_of_append l1 prev next l2 (by rw [← hdec]; exact hanti))
              refine ⟨{ timestamp := t
                        position := add3 (smul3 (1 - clip01 ((t - prev.timestamp) /
                            (next.timestamp - prev.timestamp))) prev.position)
                          (smul3 (clip01 ((t - prev.timestamp) /
                            (next.timestamp - prev.timestamp))) next.position)
                        rotation := normalize4 (blend4 (clip01 ((t - prev.timestamp) /
                            (next.timestamp - prev.timestamp))) prev.rotation
                            next.rotation) },
                      ?_, norm4_normalize4 hbne⟩
              unfold interpolate_pose
              simp only [hfb]
              rw [if_neg hdt]
          · exact Option.noConfusion habs

/-- Demo pose at time 0 with identity rotation. -/
def poseA : Pose :=
  { timestamp := 0
    position := ((0 : ℝ), (0 : ℝ), (0 : ℝ))
    rotation := ((0 : ℝ), (0 : ℝ), (0 : ℝ), (1 : ℝ)) }

/-- Demo pose at time 1 whose rotation is exactly antipodal to `poseA`'s. -/
def poseB : Pose :=
  { timestamp := 1
    position := ((0 : ℝ), (0 : ℝ), (0 : ℝ))
    rotation := ((0 : ℝ), (0 : ℝ), (0 : ℝ), (-1 : ℝ)) }

/-- Demo pose at time 1 with identity rotation, displaced along x. -/
def poseC : Pose :=
  { timestamp := 1
    position := ((10 : ℝ), (0 : ℝ), (0 : ℝ))
    rotation := ((0 : ℝ), (0 : ℝ), (0 : ℝ), (1 : ℝ)) }

/--
C7 counterexample: the pose list `[poseA, poseB]` is timestamp-ascending and
both rotations are unit quaternions, yet the rotation returned for the query
`t = 1/2` has norm 0, not within any small epsilon of 1: the linear blend of
the two antipodal rotations is the zero quaternion, whose renormalization
divides by zero (numpy produces NaN components there; the real-number model
yields 0, and in both semantics the returned rotation is not unit-norm).
-/
theorem interpolate_pose_antipodal_zero_norm :
    poseA.timestamp < poseB.timestamp ∧
    norm4 poseA.rotation = 1 ∧ norm4 poseB.rotation = 1 ∧
    (interpolate_pose [poseA, poseB] (1 / 2)).map (fun q => norm4 q.rotation)
      = some 0 := by
  refine ⟨by norm_num [poseA, poseB], ?_, ?_, ?_⟩
  · norm_num [norm4, qsum4, poseA, Real.sqrt_one]
  · norm_num [norm4, qsum4, poseB, Real.sqrt_one]
  · have hfb : findBracket (1 / 2) [poseA, poseB] none = (some poseA, some poseB) := by
      simp only [findBracket]
      rw [if_pos (show poseA.timestamp ≤ 1 / 2 by norm_num [poseA])]
      rw [if_neg (show ¬poseB.timestamp ≤ 1 / 2 by norm_num [poseB])]
    unfold interpolate_pose
    simp only [hfb]
    rw [if_neg (show ¬poseB.timestamp - poseA.timestamp < 1e-6 by norm_num [poseA, poseB])]
    have hclip : clip01 ((1 / 2 - poseA.timestamp) /
        (poseB.timestamp - poseA.timestamp)) = 1 / 2 := by
      rw [show (1 / 2 - poseA.timestamp) / (poseB.timestamp - poseA.timestamp) = 1 / 2
        by norm_num [poseA, poseB]]
      unfold clip01
      rw [max_eq_left (by norm_num), min_eq_left (by norm_num)]
    rw [hclip]
    have hblend : blend4 (1 / 2) poseA.rotation poseB.rotation
        = ((0 : ℝ), (0 : ℝ), (0 : ℝ), (0 : ℝ)) := by
      norm_num [blend4, poseA, poseB, Prod.ext_iff]
    rw [hblend]
    have hz : normalize4 ((0 : ℝ), (0 : ℝ), (0 : ℝ), (0 : ℝ))
        = ((0 : ℝ), (0 : ℝ), (0 : ℝ), (0 : ℝ)) := by
      simp [normalize4]
    rw [hz]
    norm_num [norm4, qsum4, Real.sqrt_zero]

/-- Witness for C6: the two-pose spec scenario track queried at the first
pose's own timestamp. -/
theorem interpolate_pose_exact_timestamp_witness :
    List.Pairwise (fun a b => a.timestamp < b.timestamp) [poseA, poseC] ∧
    (∀ p ∈ [poseA, poseC], norm4 p.rotation = 1) ∧
    ∃ q, interpolate_pose [poseA, poseC] ([poseA, poseC][0].timestamp) = some q ∧
      q.position = [poseA, poseC][0].position ∧
      q.rotation = [poseA, poseC][0].rotation := by
  have h2 : List.Pairwise (fun a b : Pose => a.timestamp < b.timestamp) [poseA, poseC] := by
    simp only [List.pairwise_cons, List.mem_singleton, List.Pairwise.nil]
    norm_num [poseA, poseC]
  have h3 : ∀ p ∈ [poseA, poseC], norm4 p.rotation = 1 := by
    intro p hp
    rcases List.mem_cons.mp hp with rfl | hp2
    · norm_num [norm4, qsum4, poseA, Real.sqrt_one]
    · rcases List.mem_singleton.mp hp2 with rfl
      norm_num [norm4, qsum4, poseC, Real.sqrt_one]
  exact ⟨h2, h3, interpolate_pose_exact_timestamp [poseA, poseC] 0 (by norm_num) h2 h3⟩

/-- Witness for C7 (amended): the non-antipodal two-pose track queried
strictly between the stored timestamps. -/
theorem interpolate_pose_unit_norm_witness :
    ([poseA, poseC] ≠ ([] : List Pose)) ∧
    List.Pairwise (fun a b => a.timestamp < b.timestamp) [poseA, poseC] ∧
    (∀ p ∈ [poseA, poseC], norm4 p.rotation = 1) ∧
    List.Chain' (fun a b => ¬b.rotation = neg4 a.rotation) [poseA, poseC] ∧
    ∃ q, interpolate_pose [poseA, poseC] (1 / 4) = some q ∧ norm4 q.rotation = 1 := by
  have h1 : [poseA, poseC] ≠ ([] : List Pose) := by simp
  have h2 : List.Pairwise (fun a b : Pose => a.timestamp < b.timestamp) [poseA, poseC] := by
    simp only [List.pairwise_cons, List.mem_singleton, List.Pairwise.nil]
    norm_num [poseA, poseC]
  have h3 : ∀ p ∈ [poseA, poseC], norm4 p.rotation = 1 := by
    intro p hp
    rcases List.mem_cons.mp hp with rfl | hp2
    · norm_num [norm4, qsum4, poseA, Real.sqrt_one]
    · rcases List.mem_singleton.mp hp2 with rfl
      norm_num [norm4, qsum4, poseC, Real.sqrt_one]
  have h4 : List.Chain' (fun a b : Pose => ¬b.rotation = neg4 a.rotation) [poseA, poseC] := by
    simp only [List.chain'_cons, List.chain'_singleton, and_true]
    norm_num [poseA, poseC, neg4, Prod.ext_iff]
  exact ⟨h1, h2, h3, h4, interpolate_pose_unit_norm [poseA, poseC] (1 / 4) h1 h2 h3 h4⟩

end SplatWorker
